import Mathlib

/-!
Shallow embedding of the URL-shortener's core subsystem
(`src/app/main.py`, `src/app/models.py`): the link store, the Redis
resolution cache, the two expiration sweeps, and the lifecycle
operations (create, redirect, delete, reassign).

Modelling conventions:
- A `Link` row (`models.py`, table `links`) carries its integer primary
  key `id`, so object identity across mutations is tracked the way the
  ORM tracks rows.
- Timestamps are integers (UTC instants); only their order matters to
  the code.
- The Redis cache is an association list `String × String`
  (short_code → original_url); `redis SET` overwrites, `DELETE` removes.
- Python truthiness is modelled explicitly where the source relies on
  it: `if cached_url:` is false for a missing key and for the empty
  string; `if not link_obj.user_id:` is true for `None` and for `0`;
  `if custom_alias:` / `if expires_at:` are false for `None` and `""`.
- `datetime.strptime(s, "%Y-%m-%d %H:%M")` is an external library call;
  operations that parse an expiry take the parse function as an
  argument (`strptime : String → Option Int`, `none` = `ValueError`).
-/

namespace Shortener

/-- A row of the `links` table (`models.py`, class `Link`). -/
structure Link where
  id : Nat
  short_code : String
  original_url : String
  user_id : Option Nat
  created_at : Int
  last_accessed : Int
  expires_at : Option Int
  click_count : Nat
  deriving Repr, DecidableEq

/-- The mutable state the lifecycle operations act on: the SQL store of
links and the Redis cache (short_code → original_url). -/
structure St where
  store : List Link
  cache : List (String × String)
  deriving Repr, DecidableEq

/-- `redis_client.get(k)`: first binding of the key, if any. -/
def cacheGet (c : List (String × String)) (k : String) : Option String :=
  (c.find? (fun p => p.1 == k)).map (fun p => p.2)

/-- `redis_client.set(k, v)`: overwrite any existing binding. -/
def cacheSet (c : List (String × String)) (k v : String) : List (String × String) :=
  (k, v) :: c.filter (fun p => p.1 != k)

/-- `redis_client.delete(k)`. -/
def cacheDelete (c : List (String × String)) (k : String) : List (String × String) :=
  c.filter (fun p => p.1 != k)

/-- Python truthiness of the value `redis_client.get` returned:
`None` (missing key) and the empty byte string are falsy. -/
def truthyGet (c : List (String × String)) (k : String) : Option String :=
  match cacheGet c k with
  | none => none
  | some v => if v = "" then none else some v

/-- Python truthiness of an optional form string: `None` and `""` are falsy. -/
def truthyS : Option String → Bool
  | none => false
  | some s => s != ""

/-- Python truthiness test `not link_obj.user_id`: true for `None` and `0`. -/
def pyFalsyId : Option Nat → Bool
  | none => true
  | some n => n == 0

/-- `db.query(Link).filter(Link.short_code == code).first()`. -/
def findByCode (store : List Link) (code : String) : Option Link :=
  store.find? (fun l => l.short_code == code)

/-- In-place ORM mutation of the row with primary key `lid`, then commit. -/
def updateLink (store : List Link) (lid : Nat) (f : Link → Link) : List Link :=
  store.map (fun l => if l.id == lid then f l else l)

/-- `db.delete(link_obj)` for the row with primary key `lid`, then commit. -/
def removeById (store : List Link) (lid : Nat) : List Link :=
  store.filter (fun l => l.id != lid)

/-- The sweep predicate `Link.expires_at.isnot(None), Link.expires_at < now`,
which is also the redirect path's lazy check
`link_obj.expires_at and link_obj.expires_at < now_utc`. -/
def isExpired (now : Int) (l : Link) : Bool :=
  match l.expires_at with
  | none => false
  | some e => e < now

/-- The guest-idle predicate `Link.user_id.is_(None),
Link.last_accessed < two_days_ago` with
`two_days_ago = now - timedelta(days=UNREGISTERED_LINK_MAX_AGE_DAYS)`. -/
def isIdleGuest (now : Int) (l : Link) : Bool :=
  l.user_id.isNone && l.last_accessed < now - 2 * 86400

/-- `delete_expired_links` (main.py, the APScheduler job): select all
links with `expires_at` set and `< now`, delete each from the store and
its code from the cache. -/
def delete_expired_links (now : Int) (s : St) : St :=
  let expired := s.store.filter (fun l => isExpired now l)
  { store := s.store.filter (fun l => !(isExpired now l)),
    cache := expired.foldl (fun c l => cacheDelete c l.short_code) s.cache }

/-- `cleanup_expired_unregistered_links` (main.py, run by the per-request
middleware): delete every guest link (`user_id IS NULL`) idle for more
than two days, and its cache entry. -/
def cleanup_expired_unregistered_links (now : Int) (s : St) : St :=
  let unregistered := s.store.filter (fun l => isIdleGuest now l)
  { store := s.store.filter (fun l => !(isIdleGuest now l)),
    cache := unregistered.foldl (fun c l => cacheDelete c l.short_code) s.cache }

/-- Outcome of `GET /links/{short_code}`. -/
inductive RedirectResult where
  | redirect (location : String)
  | notFound
  | gone
  deriving Repr, DecidableEq

/-- `redirect_link` (main.py): cache first; on a truthy hit, bump
`last_accessed`/`click_count` when the row exists and answer 307 with the
cached URL; on a miss, 404 when absent, 410 when expired, else bump the
counters, repopulate the cache and answer 307. -/
def redirect_link (now : Int) (short_code : String) (s : St) : RedirectResult × St :=
  match truthyGet s.cache short_code with
  | some original_url =>
    match findByCode s.store short_code with
    | some link_obj =>
      (RedirectResult.redirect original_url,
       { s with store := (updateLink s.store link_obj.id
           (fun l => { l with last_accessed := now, click_count := l.click_count + 1 })) })
    | none => (RedirectResult.redirect original_url, s)
  | none =>
    match findByCode s.store short_code with
    | none => (RedirectResult.notFound, s)
    | some link_obj =>
      if isExpired now link_obj then
        (RedirectResult.gone, s)
      else
        (RedirectResult.redirect link_obj.original_url,
         { store := (updateLink s.store link_obj.id
             (fun l => { l with last_accessed := now, click_count := l.click_count + 1 })),
           cache := cacheSet s.cache short_code link_obj.original_url })

/-- Outcome of `DELETE /links/{short_code}` (404 / 403 / 200). -/
inductive DeleteResult where
  | ok
  | notFound
  | forbidden
  deriving Repr, DecidableEq

/-- `delete_link` (main.py): 404 when the code is unknown; 403 when the
row's `user_id` is falsy (guest) or differs from the caller; otherwise
delete the row and the cache entry. -/
def delete_link (short_code : String) (current_user_id : Nat) (s : St) :
    DeleteResult × St :=
  match findByCode s.store short_code with
  | none => (DeleteResult.notFound, s)
  | some link_obj =>
    if pyFalsyId link_obj.user_id then
      (DeleteResult.forbidden, s)
    else if link_obj.user_id != some current_user_id then
      (DeleteResult.forbidden, s)
    else
      (DeleteResult.ok,
       { store := removeById s.store link_obj.id,
         cache := cacheDelete s.cache short_code })

/-- Outcome of `PUT /links/{short_code}` (404 / 403 / 400 on generated-code
collision / 200 with the new code). -/
inductive ReassignResult where
  | ok (new_code : String)
  | notFound
  | forbidden
  | conflict
  deriving Repr, DecidableEq

/-- `reassign_code` (main.py): 404 when unknown; 403 when `user_id` is
falsy or differs from the caller; 400 when the freshly generated code
(`new_code`, passed in as the draw of `str(uuid.uuid4())[:8]`) is taken;
otherwise delete the old cache entry, rename the row, cache the new code. -/
def reassign_code (short_code : String) (current_user_id : Nat) (new_code : String)
    (s : St) : ReassignResult × St :=
  match findByCode s.store short_code with
  | none => (ReassignResult.notFound, s)
  | some link_obj =>
    if pyFalsyId link_obj.user_id || link_obj.user_id != some current_user_id then
      (ReassignResult.forbidden, s)
    else
      match findByCode s.store new_code with
      | some _ => (ReassignResult.conflict, s)
      | none =>
        (ReassignResult.ok new_code,
         { store := (updateLink s.store link_obj.id
             (fun l => { l with short_code := new_code })),
           cache := (cacheSet (cacheDelete s.cache short_code) new_code
             link_obj.original_url) })

/-- Outcome of `POST /links/shorten` (400 on bad expiry, 400 on taken
alias, else the created code). -/
inductive CreateResult where
  | created (code : String)
  | aliasTaken
  | invalidExpiry
  deriving Repr, DecidableEq

/-- `create_short_link` (main.py): parse the optional expiry with
`strptime` (400 on `ValueError`); a truthy custom alias must be free
(else 400); otherwise the code is the fresh draw `gen_code` of
`str(uuid.uuid4())[:8]`; insert the new row (`click_count` defaults to 0)
and cache `code → original_url`. `token_user` is the id resolved from the
optional bearer token, `new_id` the fresh primary key. -/
def create_short_link (strptime : String → Option Int) (original_url : String)
    (custom_alias expires_at : Option String) (token_user : Option Nat)
    (gen_code : String) (new_id : Nat) (now : Int) (s : St) : CreateResult × St :=
  match (if truthyS expires_at then
      match strptime (expires_at.getD "") with
      | none => Except.error ()
      | some t => Except.ok (some t)
    else Except.ok none : Except Unit (Option Int)) with
  | Except.error _ => (CreateResult.invalidExpiry, s)
  | Except.ok expires_dt =>
    match (if truthyS custom_alias then
        if (findByCode s.store (custom_alias.getD "")).isSome then Except.error ()
        else Except.ok (custom_alias.getD "")
      else Except.ok gen_code : Except Unit String) with
    | Except.error _ => (CreateResult.aliasTaken, s)
    | Except.ok code =>
      (CreateResult.created code,
       { store := s.store ++
           [{ id := new_id, short_code := code, original_url := original_url,
              user_id := token_user, created_at := now, last_accessed := now,
              expires_at := expires_dt, click_count := 0 }],
         cache := cacheSet s.cache code original_url })

/-- `click_count` never decreases from `pre` to `post`: every row of `post`
descends from a row of `pre` with the same primary key and a click count
at least as large. -/
def noClickDecrease (pre post : List Link) : Prop :=
  ∀ y ∈ post, ∃ x ∈ pre, x.id = y.id ∧ x.click_count ≤ y.click_count

end Shortener

namespace Shortener

/-! ### Helper lemmas about the cache and the sweeps -/

theorem cacheGet_cacheDelete (c : List (String × String)) (k k' : String) :
    cacheGet (cacheDelete c k) k' = if k' = k then none else cacheGet c k' := by
  unfold cacheGet cacheDelete
  rw [List.find?_filter]
  by_cases h : k' = k
  · subst h
    rw [List.find?_eq_none.mpr ?_]
    · simp
    · intro p _ hp
      simp only [decide_eq_true_eq] at hp
      rw [beq_iff_eq] at hp
      simp [hp.2] at hp
  · have hpred : (fun p : String × String => decide ((p.1 != k) = true ∧ (p.1 == k') = true))
        = fun p => p.1 == k' := by
      funext p
      by_cases hp : p.1 = k'
      · simp [hp, h]
      · simp [hp]
    rw [hpred]
    simp [h]

theorem cacheGet_cacheSet (c : List (String × String)) (k v k' : String) :
    cacheGet (cacheSet c k v) k' = if k' = k then some v else cacheGet c k' := by
  have hd := cacheGet_cacheDelete c k k'
  by_cases h : k' = k
  · subst h
    simp [cacheGet, cacheSet, List.find?_cons]
  · have hne : (k == k') = false := by simp [Ne.symm h]
    simp only [cacheGet, cacheSet, cacheDelete, List.find?_cons, hne] at *
    simp only [h, if_false] at hd ⊢
    exact hd

theorem cacheGet_foldl_cacheDelete (ls : List Link) (c : List (String × String)) (k : String) :
    cacheGet (ls.foldl (fun c l => cacheDelete c l.short_code) c) k
      = if ls.any (fun l => l.short_code == k) then none else cacheGet c k := by
  induction ls generalizing c with
  | nil => simp
  | cons l t ih =>
    rw [List.foldl_cons, ih, List.any_cons]
    by_cases h : l.short_code = k
    · simp [h, cacheGet_cacheDelete]
    · have hb : (l.short_code == k) = false := by simp [h]
      rw [hb, Bool.false_or, cacheGet_cacheDelete]
      simp [Ne.symm h]

theorem delete_expired_links_def (now : Int) (s : St) :
    delete_expired_links now s
      = { store := s.store.filter (fun l => !(isExpired now l)),
          cache := (s.store.filter (fun l => isExpired now l)).foldl
              (fun c l => cacheDelete c l.short_code) s.cache } := rfl

theorem cleanup_def (now : Int) (s : St) :
    cleanup_expired_unregistered_links now s
      = { store := s.store.filter (fun l => !(isIdleGuest now l)),
          cache := (s.store.filter (fun l => isIdleGuest now l)).foldl
              (fun c l => cacheDelete c l.short_code) s.cache } := rfl

theorem noClickDecrease_self (pre : List Link) : noClickDecrease pre pre :=
  fun y hy => ⟨y, hy, rfl, le_refl _⟩

theorem noClickDecrease_filter (pre : List Link) (p : Link → Bool) :
    noClickDecrease pre (pre.filter p) :=
  fun y hy => ⟨y, (List.mem_filter.mp hy).1, rfl, le_refl _⟩

theorem noClickDecrease_removeById (pre : List Link) (lid : Nat) :
    noClickDecrease pre (removeById pre lid) :=
  noClickDecrease_filter pre _

theorem noClickDecrease_bump (pre : List Link) (lid : Nat) (now : Int) :
    noClickDecrease pre (updateLink pre lid
      (fun x => { x with last_accessed := now, click_count := x.click_count + 1 })) := by
  intro y hy
  obtain ⟨x, hx, hfx⟩ := List.mem_map.mp hy
  refine ⟨x, hx, ?_, ?_⟩ <;> subst hfx <;> by_cases h : (x.id == lid) = true <;> simp [h]

theorem noClickDecrease_rename (pre : List Link) (lid : Nat) (nc : String) :
    noClickDecrease pre (updateLink pre lid (fun x => { x with short_code := nc })) := by
  intro y hy
  obtain ⟨x, hx, hfx⟩ := List.mem_map.mp hy
  refine ⟨x, hx, ?_, ?_⟩ <;> subst hfx <;> by_cases h : (x.id == lid) = true <;> simp [h]

/-! ### Claim theorems -/

/-- C1, counterexample: the claim that an expired link is never resolvable
"regardless of whether the short code is present in the cache" is false on
the code. Concretely: a link whose `expires_at` (5) is before the request
time (10) but whose code is still in the cache is resolved with a 307 to
the cached destination, because `redirect_link` serves a truthy cache hit
without any expiry check. -/
theorem redirect_cached_expired_resolves :
    isExpired 10 ⟨1, "ab", "u", none, 0, 0, some 5, 0⟩ = true ∧
    (redirect_link 10 "ab" ⟨[⟨1, "ab", "u", none, 0, 0, some 5, 0⟩], [("ab", "u")]⟩).1
      = RedirectResult.redirect "u" := by
  constructor
  · rfl
  · rfl

/-- C1, amended: when the short code is NOT (truthily) present in the cache,
a link whose `expires_at` lies in the past is never resolved: the redirect
fails with NotFound or Gone and leaves the state unchanged. The lazy expiry
check runs only on the cache-miss path. -/
theorem redirect_uncached_expired_never_resolves (now : Int) (code : String) (s : St)
    (hmiss : truthyGet s.cache code = none)
    (hexp : ∀ l, findByCode s.store code = some l → isExpired now l = true) :
    ((redirect_link now code s).1 = RedirectResult.notFound ∨
      (redirect_link now code s).1 = RedirectResult.gone) ∧
    (redirect_link now code s).2 = s := by
  unfold redirect_link
  rw [hmiss]
  cases hf : findByCode s.store code with
  | none => simp
  | some l => simp [hexp l hf]

/-- C1, witness for the amended theorem at a concrete expired, uncached link. -/
theorem redirect_uncached_expired_witness :
    (((redirect_link 10 "ab" ⟨[⟨1, "ab", "u", none, 0, 0, some 5, 0⟩], []⟩).1
        = RedirectResult.notFound) ∨
      ((redirect_link 10 "ab" ⟨[⟨1, "ab", "u", none, 0, 0, some 5, 0⟩], []⟩).1
        = RedirectResult.gone)) ∧
    (redirect_link 10 "ab" ⟨[⟨1, "ab", "u", none, 0, 0, some 5, 0⟩], []⟩).2
      = ⟨[⟨1, "ab", "u", none, 0, 0, some 5, 0⟩], []⟩ := by
  exact redirect_uncached_expired_never_resolves 10 "ab" _ rfl
    (fun l hf => by cases hf; rfl)

/-- C2: after a successful delete and after a successful reassign, a cache
lookup by the old short code misses — the entry is removed in the same
logical operation as the Store mutation, so the old code can never serve a
previously cached destination. -/
theorem old_code_cache_invalidated (code : String) (uid : Nat) (nc : String) (s : St) :
    ((delete_link code uid s).1 = DeleteResult.ok →
        cacheGet (delete_link code uid s).2.cache code = none) ∧
    ((reassign_code code uid nc s).1 = ReassignResult.ok nc →
        cacheGet (reassign_code code uid nc s).2.cache code = none) := by
  constructor
  · intro hok
    unfold delete_link at hok ⊢
    cases hf : findByCode s.store code <;> rw [hf] at hok
    · simp at hok
    · rename_i l
      by_cases h1 : pyFalsyId l.user_id = true
      · simp [h1] at hok
      · by_cases h2 : (l.user_id != some uid) = true
        · simp [h1, h2] at hok
        · simp [h1, h2, cacheGet_cacheDelete]
  · intro hok
    unfold reassign_code at hok ⊢
    cases hf : findByCode s.store code <;> rw [hf] at hok
    · simp at hok
    · rename_i l
      by_cases h1 : (pyFalsyId l.user_id || (l.user_id != some uid)) = true
      · simp [h1] at hok
      · cases hg : findByCode s.store nc <;> rw [hg] at hok
        · have hlmem := List.mem_of_find?_eq_some hf
          have hlcode : l.short_code = code := by
            have := List.find?_some hf
            simpa [beq_iff_eq] using this
          have hnc : nc ≠ code := by
            intro he
            subst he
            unfold findByCode at hg
            rw [List.find?_eq_none] at hg
            exact hg l hlmem (by simp [hlcode])
          simp [h1, cacheGet_cacheSet, cacheGet_cacheDelete, Ne.symm hnc]
        · simp [h1] at hok

/-- C2, witness: a concrete owned link is deleted, and separately
reassigned, and in both runs the old code misses in the cache. -/
theorem old_code_cache_invalidated_witness :
    cacheGet (delete_link "a" 7
        ⟨[⟨1, "a", "u", some 7, 0, 0, none, 0⟩], [("a", "u")]⟩).2.cache "a" = none ∧
    cacheGet (reassign_code "a" 7 "b"
        ⟨[⟨1, "a", "u", some 7, 0, 0, none, 0⟩], [("a", "u")]⟩).2.cache "a" = none := by
  constructor
  · exact (old_code_cache_invalidated "a" 7 "b" _).1 (by decide)
  · exact (old_code_cache_invalidated "a" 7 "b" _).2 (by decide)

/-- C3: one run of the absolute-expiry sweep keeps exactly the links that
are not expired at `now` (each kept row unchanged), and the cache ends up
missing precisely the keys of the swept (expired) links, every other cache
entry being untouched. -/
theorem sweep_removes_exactly_expired (now : Int) (s : St) :
    (∀ l : Link, l ∈ (delete_expired_links now s).store ↔
        l ∈ s.store ∧ isExpired now l = false) ∧
    (∀ k : String, cacheGet (delete_expired_links now s).cache k =
        if s.store.any (fun l => isExpired now l && l.short_code == k) then none
        else cacheGet s.cache k) := by
  constructor
  · intro l
    rw [delete_expired_links_def]
    simp [List.mem_filter]
  · intro k
    rw [delete_expired_links_def]
    simp only
    rw [cacheGet_foldl_cacheDelete, List.any_filter]

/-- C4: the guest idle-expiry sweep keeps exactly the links that are not
idle guests (guest = `user_id` unset, idle = `last_accessed` more than two
days before `now`); in particular a link with an owner is never removed by
this sweep, however idle. -/
theorem guest_sweep_exact (now : Int) (s : St) :
    (∀ l : Link, l ∈ (cleanup_expired_unregistered_links now s).store ↔
        l ∈ s.store ∧ isIdleGuest now l = false) ∧
    (∀ l : Link, l ∈ s.store → l.user_id.isSome = true →
        l ∈ (cleanup_expired_unregistered_links now s).store) := by
  constructor
  · intro l
    rw [cleanup_def]
    simp [List.mem_filter]
  · intro l hl hown
    rw [cleanup_def]
    simp only [List.mem_filter]
    refine ⟨hl, ?_⟩
    simp [isIdleGuest, Option.isNone_iff_eq_none]
    exact Or.inl hown

/-- C4, witness: an owned link idle far beyond the threshold survives a
concrete run of the guest sweep. -/
theorem guest_sweep_exact_witness :
    (⟨2, "own", "u", some 7, 0, -999999, none, 0⟩ : Link)
      ∈ (cleanup_expired_unregistered_links 200000
          ⟨[⟨2, "own", "u", some 7, 0, -999999, none, 0⟩], []⟩).store := by
  exact (guest_sweep_exact 200000 _).2 _ (by simp) rfl

/-- C5: resolving a live, unexpired code increments exactly that link's
`click_count` by exactly 1 (the post-store is the pre-store with just that
row bumped), and no operation of the system ever decreases a `click_count`:
redirect/delete/reassign/both sweeps map every surviving row to a row with
the same id and a click count at least as large, and create leaves all
pre-existing rows in place. -/
theorem click_count_increment_and_monotone (now : Int) (code : String) (s : St)
    (l : Link) (hfind : findByCode s.store code = some l)
    (hexp : isExpired now l = false) :
    ((∃ url, (redirect_link now code s).1 = RedirectResult.redirect url) ∧
     (redirect_link now code s).2.store
       = s.store.map (fun x => if x.id == l.id then
           { x with last_accessed := now, click_count := x.click_count + 1 } else x)) ∧
    (∀ (n : Int) (c : String) (t : St),
        noClickDecrease t.store (redirect_link n c t).2.store) ∧
    (∀ (c : String) (uid : Nat) (t : St),
        noClickDecrease t.store (delete_link c uid t).2.store) ∧
    (∀ (c nc : String) (uid : Nat) (t : St),
        noClickDecrease t.store (reassign_code c uid nc t).2.store) ∧
    (∀ (n : Int) (t : St), noClickDecrease t.store (delete_expired_links n t).store) ∧
    (∀ (n : Int) (t : St),
        noClickDecrease t.store (cleanup_expired_unregistered_links n t).store) ∧
    (∀ (stp : String → Option Int) (url : String) (ca ea : Option String)
        (tu : Option Nat) (g : String) (nid : Nat) (n : Int) (t : St) (x : Link),
        x ∈ t.store → x ∈ (create_short_link stp url ca ea tu g nid n t).2.store) := by
  refine ⟨?_, ?_, ?_, ?_, ?_, ?_, ?_⟩
  · unfold redirect_link
    cases ht : truthyGet s.cache code with
    | some u =>
      rw [hfind]
      exact ⟨⟨u, rfl⟩, rfl⟩
    | none =>
      rw [hfind]
      refine ⟨⟨l.original_url, ?_⟩, ?_⟩ <;> simp [hexp, updateLink]
  · intro n c t
    unfold redirect_link
    cases ht : truthyGet t.cache c with
    | some u =>
      cases hf : findByCode t.store c with
      | some l' => exact noClickDecrease_bump _ _ _
      | none => exact noClickDecrease_self _
    | none =>
      cases hf : findByCode t.store c with
      | none => exact noClickDecrease_self _
      | some l' =>
        by_cases he : isExpired n l' = true
        · simp only [he, if_true]
          exact noClickDecrease_self _
        · simp only [he, if_false]
          exact noClickDecrease_bump _ _ _
  · intro c uid t
    unfold delete_link
    cases hf : findByCode t.store c with
    | none => exact noClickDecrease_self _
    | some l' =>
      by_cases h1 : pyFalsyId l'.user_id = true
      · simp only [h1, if_true]
        exact noClickDecrease_self _
      · simp only [h1, if_false]
        by_cases h2 : (l'.user_id != some uid) = true
        · simp only [h2, if_true]
          exact noClickDecrease_self _
        · simp only [h2, if_false]
          exact noClickDecrease_removeById _ _
  · intro c nc uid t
    unfold reassign_code
    cases hf : findByCode t.store c with
    | none => exact noClickDecrease_self _
    | some l' =>
      by_cases h1 : (pyFalsyId l'.user_id || (l'.user_id != some uid)) = true
      · simp only [h1, if_true]
        exact noClickDecrease_self _
      · simp only [h1, if_false]
        cases hg : findByCode t.store nc with
        | some w => exact noClickDecrease_self _
        | none => exact noClickDecrease_rename _ _ _
  · intro n t
    rw [delete_expired_links_def]
    exact noClickDecrease_filter _ _
  · intro n t
    rw [cleanup_def]
    exact noClickDecrease_filter _ _
  · intro stp url ca ea tu g nid n t x hx
    unfold create_short_link
    split
    · exact hx
    · split
      · exact hx
      · exact List.mem_append_left _ hx

/-- C5, witness: resolving a concrete live link with `click_count` 3 yields
a 307 and a store whose only row now has `click_count` 4. -/
theorem click_count_increment_witness :
    (∃ url, (redirect_link 10 "a" ⟨[⟨1, "a", "u", none, 0, 0, none, 3⟩], []⟩).1
        = RedirectResult.redirect url) ∧
    (redirect_link 10 "a" ⟨[⟨1, "a", "u", none, 0, 0, none, 3⟩], []⟩).2.store
      = [⟨1, "a", "u", none, 0, 10, none, 4⟩] := by
  have h := (click_count_increment_and_monotone 10 "a"
      ⟨[⟨1, "a", "u", none, 0, 0, none, 3⟩], []⟩
      ⟨1, "a", "u", none, 0, 0, none, 3⟩ (by decide) rfl).1
  refine ⟨h.1, ?_⟩
  rw [h.2]
  rfl

/-- C6, counterexample: the claim that an ill-formed or empty destination is
rejected is false on the code — a shorten request with the empty string as
destination succeeds and inserts a link (the handler performs no URL
validation at all). -/
theorem create_empty_url_accepted :
    create_short_link (fun _ => none) "" none none none "g1" 1 0 ⟨[], []⟩
      = (CreateResult.created "g1",
         ⟨[⟨1, "g1", "", none, 0, 0, none, 0⟩], [("g1", "")]⟩) := rfl

/-- C6, amended: the shorten operation performs no well-formedness or
non-emptiness validation of the destination. For every destination string
whatsoever (well-formed or not, empty or not), every request whose alias is
absent or free and whose expiry input is absent (falsy) or parsable creates
a link carrying exactly that string, under the alias when one was given and
the fresh code otherwise, with the parsed expiry when one was given. -/
theorem create_accepts_any_url (strptime : String → Option Int) (url : String)
    (custom_alias expires_at : Option String) (token_user : Option Nat)
    (gen_code : String) (new_id : Nat) (now : Int) (s : St)
    (hexp : truthyS expires_at = false ∨ ∃ t, strptime (expires_at.getD "") = some t)
    (halias : truthyS custom_alias = false ∨
        findByCode s.store (custom_alias.getD "") = none) :
    create_short_link strptime url custom_alias expires_at token_user gen_code new_id now s
      = (CreateResult.created
           (if truthyS custom_alias then custom_alias.getD "" else gen_code),
         { store := s.store ++
             [⟨new_id, (if truthyS custom_alias then custom_alias.getD "" else gen_code),
               url, token_user, now, now,
               (if truthyS expires_at then strptime (expires_at.getD "") else none), 0⟩],
           cache := cacheSet s.cache
             (if truthyS custom_alias then custom_alias.getD "" else gen_code) url }) := by
  by_cases hea : truthyS expires_at = true
  · rcases hexp with hexp | ⟨t, hpt⟩
    · rw [hea] at hexp
      exact absurd hexp (by simp)
    · by_cases hca : truthyS custom_alias = true
      · rcases halias with halias | halias
        · rw [hca] at halias
          exact absurd halias (by simp)
        · unfold create_short_link
          simp [hea, hca, hpt, halias]
      · unfold create_short_link
        simp [hea, hca, hpt]
  · by_cases hca : truthyS custom_alias = true
    · rcases halias with halias | halias
      · rw [hca] at halias
        exact absurd halias (by simp)
      · unfold create_short_link
        simp [hea, hca, halias]
    · unfold create_short_link
      simp [hea, hca]

/-- C6, witness for the amended theorem: a concrete request with an
ill-formed destination, a free custom alias and a parsable expiry input
creates the link verbatim under the alias. -/
theorem create_accepts_any_url_witness :
    create_short_link (fun _ => some 99) "not a url" (some "promo") (some "x")
        none "g1" 1 0 ⟨[], []⟩
      = (CreateResult.created "promo",
         ⟨[⟨1, "promo", "not a url", none, 0, 0, some 99, 0⟩],
          [("promo", "not a url")]⟩) := by
  have h := create_accepts_any_url (fun _ => some 99) "not a url" (some "promo")
      (some "x") none "g1" 1 0 ⟨[], []⟩ (Or.inr ⟨99, rfl⟩) (Or.inr rfl)
  rw [h]
  rfl

/-- C7: the absolute-expiry sweep is idempotent — a second run at the same
current time changes neither the store nor the cache. -/
theorem sweep_idempotent (now : Int) (s : St) :
    delete_expired_links now (delete_expired_links now s) = delete_expired_links now s := by
  have hmem : ∀ l ∈ (delete_expired_links now s).store, (isExpired now l) = false := by
    intro l hl
    rw [delete_expired_links_def] at hl
    have h2 := (List.mem_filter.mp hl).2
    simpa using h2
  have h1 : (delete_expired_links now s).store.filter (fun l => !(isExpired now l))
      = (delete_expired_links now s).store :=
    List.filter_eq_self.mpr (fun a ha => by simp [hmem a ha])
  have h2 : (delete_expired_links now s).store.filter (fun l => isExpired now l) = [] :=
    List.filter_eq_nil_iff.mpr (fun a ha => by simp [hmem a ha])
  rw [delete_expired_links_def now (delete_expired_links now s), h1, h2]
  rfl

/-- C8: the delete operation returns NotFound and leaves the state intact
when the code is unknown; returns Forbidden and leaves the state intact when
the link is a guest link or the caller is not its owner; and only when the
caller is the owner does it remove the row and the cache entry. The store is
assumed well-formed in that no row carries owner id 0 (SQL primary keys
start at 1; the handler's Python truthiness test `not link_obj.user_id`
would otherwise also treat owner id 0 as a guest). -/
theorem delete_contract (code : String) (uid : Nat) (s : St)
    (hids : ∀ l ∈ s.store, l.user_id ≠ some 0) :
    (findByCode s.store code = none → delete_link code uid s = (DeleteResult.notFound, s)) ∧
    (∀ l, findByCode s.store code = some l →
      ((l.user_id = none ∨ l.user_id ≠ some uid) →
          delete_link code uid s = (DeleteResult.forbidden, s)) ∧
      (l.user_id = some uid →
          delete_link code uid s
            = (DeleteResult.ok,
               { store := removeById s.store l.id, cache := cacheDelete s.cache code }))) := by
  constructor
  · intro hf
    unfold delete_link
    rw [hf]
  · intro l hf
    have hmem := List.mem_of_find?_eq_some hf
    constructor
    · rintro (hnone | hne)
      · unfold delete_link
        rw [hf]
        simp [pyFalsyId, hnone]
      · unfold delete_link
        rw [hf]
        by_cases h1 : pyFalsyId l.user_id = true
        · simp [h1]
        · simp [h1, hne]
    · intro hown
      unfold delete_link
      rw [hf]
      have h0 : uid ≠ 0 := by
        intro h
        exact hids l hmem (by rw [hown, h])
      simp [pyFalsyId, hown, h0]

/-- C8, witness: the owner of a concrete link deletes it; the row and the
cache entry are both gone. -/
theorem delete_contract_witness :
    delete_link "a" 7 ⟨[⟨1, "a", "u", some 7, 0, 0, none, 0⟩], [("a", "u")]⟩
      = (DeleteResult.ok, ⟨[], []⟩) := by
  have h := ((delete_contract "a" 7 ⟨[⟨1, "a", "u", some 7, 0, 0, none, 0⟩], [("a", "u")]⟩
      (by intro l hl; rw [List.mem_singleton] at hl; subst hl; decide)).2
      ⟨1, "a", "u", some 7, 0, 0, none, 0⟩ (by decide)).2 rfl
  rw [h]
  rfl

/-- C9: a successful reassign changes only the short_code of the target row:
the post-store is the pre-store with that one row's code rewritten, the
renamed row keeps its original_url, owner, created_at, last_accessed,
expires_at and click_count, and every other row is untouched. -/
theorem reassign_frame (code : String) (uid : Nat) (nc : String) (s : St) (l : Link)
    (hfind : findByCode s.store code = some l)
    (hown : l.user_id = some uid) (h0 : uid ≠ 0)
    (hfree : findByCode s.store nc = none) :
    (reassign_code code uid nc s).1 = ReassignResult.ok nc ∧
    (reassign_code code uid nc s).2.store
      = s.store.map (fun x => if x.id == l.id then { x with short_code := nc } else x) ∧
    (∃ y ∈ (reassign_code code uid nc s).2.store,
        y.id = l.id ∧ y.short_code = nc ∧ y.original_url = l.original_url ∧
        y.user_id = l.user_id ∧ y.created_at = l.created_at ∧
        y.last_accessed = l.last_accessed ∧ y.expires_at = l.expires_at ∧
        y.click_count = l.click_count) ∧
    (∀ x ∈ s.store, x.id ≠ l.id → x ∈ (reassign_code code uid nc s).2.store) := by
  have hres : reassign_code code uid nc s
      = (ReassignResult.ok nc,
         { store := updateLink s.store l.id (fun x => { x with short_code := nc }),
           cache := cacheSet (cacheDelete s.cache code) nc l.original_url }) := by
    unfold reassign_code
    rw [hfind, hfree]
    simp [pyFalsyId, hown, h0]
  refine ⟨by rw [hres], by rw [hres]; rfl, ?_, ?_⟩
  · refine ⟨{ l with short_code := nc }, ?_, rfl, rfl, rfl, rfl, rfl, rfl, rfl, rfl⟩
    rw [hres]
    have hmem := List.mem_of_find?_eq_some hfind
    exact List.mem_map.mpr ⟨l, hmem, by simp⟩
  · intro x hx hne
    rw [hres]
    simp only [updateLink]
    refine List.mem_map.mpr ⟨x, hx, ?_⟩
    have : (x.id == l.id) = false := by simp [hne]
    simp [this]

/-- C9, witness: reassigning a concrete owned link from "a" to "b" succeeds
and yields a store whose only row differs from the original solely in its
short code. -/
theorem reassign_frame_witness :
    (reassign_code "a" 7 "b" ⟨[⟨1, "a", "u", some 7, 0, 0, none, 3⟩], []⟩).1
      = ReassignResult.ok "b" ∧
    (reassign_code "a" 7 "b" ⟨[⟨1, "a", "u", some 7, 0, 0, none, 3⟩], []⟩).2.store
      = [⟨1, "b", "u", some 7, 0, 0, none, 3⟩] := by
  have h := reassign_frame "a" 7 "b" ⟨[⟨1, "a", "u", some 7, 0, 0, none, 3⟩], []⟩
      ⟨1, "a", "u", some 7, 0, 0, none, 3⟩ (by decide) rfl (by decide) (by decide)
  refine ⟨h.1, ?_⟩
  rw [h.2.1]
  rfl

/-- C10: when the cache (truthily) maps a code to a URL but the store has no
row with that code, the redirect still answers 307 with the cached URL and
performs no store write at all — the state is returned unchanged. -/
theorem redirect_cached_orphan (now : Int) (code url : String) (s : St)
    (hget : cacheGet s.cache code = some url) (hne : url ≠ "")
    (habs : findByCode s.store code = none) :
    redirect_link now code s = (RedirectResult.redirect url, s) := by
  unfold redirect_link truthyGet
  rw [hget]
  simp [hne, habs]

/-- C10, witness: a concrete orphaned cache entry is served as a 307 with no
state change. -/
theorem redirect_cached_orphan_witness :
    redirect_link 0 "g" ⟨[], [("g", "u")]⟩
      = (RedirectResult.redirect "u", ⟨[], [("g", "u")]⟩) :=
  redirect_cached_orphan 0 "g" "u" _ rfl (by decide) rfl

end Shortener
